import Mathlib

/-!
Verification of the SmartForest sensor-node firmware (src/main.cpp)
against its natural-language specification.

The development shallowly embeds the parts of `main.cpp` that the claims
are about:

* the wire codec of `PictureReportPackage` (lines 68-108) over a model of
  ArduinoJson objects;
* the bounded report queue (`cppQueue reportQueue(..., 10, FIFO)`, line
  112) together with the overflow discipline of `takePicture` (lines
  186-195);
* the delivery task `sendReport` (lines 125-139);
* the capture pipeline `takePicture` (lines 143-201), with the EEPROM
  sequence counter modelled as a one-byte store with a RAM cache and a
  flash cell (`EEPROM.begin(1)` / `EEPROM.read` / `EEPROM.write` /
  `EEPROM.commit`);
* the initialization tasks and the cooperative scheduler's enable flags
  (lines 220-327 and `setup`, lines 342-376);
* the uptime logger (lines 203-218).

External collaborators (camera, SD card, mesh transport) are modelled as
oracle inputs, following the collaborator contracts of the spec.
-/

namespace SmartForest

/-! ## ArduinoJson model

A `JsonObj` is the keyed structured message the transport accepts.
`setField` models `jsonObj["k"] = v` (the encoder writes each key once),
`getField` models `jsonObj["k"]`. -/

inductive JsonValue where
  | jInt (z : Int)
  | jFloat (q : ℚ)
deriving DecidableEq

abbrev JsonObj := List (String × JsonValue)

def setField (j : JsonObj) (k : String) (v : JsonValue) : JsonObj :=
  j ++ [(k, v)]

def getField (j : JsonObj) (k : String) : Option JsonValue :=
  match j with
  | [] => none
  | (k2, v) :: rest => if k2 = k then some v else getField rest k

/-- Truncation of a rational toward zero, the C++ `float → int` cast that
ArduinoJson's `as<int>()` performs on a floating-point value. -/
def ratTrunc (q : ℚ) : Int :=
  if 0 ≤ q.num then ((q.num.toNat / q.den : Nat) : Int)
  else -(((-q.num).toNat / q.den : Nat) : Int)

/-- ArduinoJson `as<int>()`: the stored number if any, else the default 0.
No presence or type check is performed (main.cpp lines 80-84). -/
def asInt (v : Option JsonValue) : Int :=
  match v with
  | some (.jInt z) => z
  | some (.jFloat q) => ratTrunc q
  | none => 0

/-- Two's-complement wrap into the `int` (int32) range, the conversion a
C++ `int` field applies to an out-of-range value. -/
def wrap32 (z : Int) : Int := (z + 2 ^ 31) % 2 ^ 32 - 2 ^ 31

def asInt32 (v : Option JsonValue) : Int := wrap32 (asInt v)

/-- ArduinoJson `as<uint32_t>`: wrap into the uint32 range. -/
def asUInt32 (v : Option JsonValue) : Nat := ((asInt v) % 2 ^ 32).toNat

/-- ArduinoJson `as<float>()`: the stored number if any, else 0. -/
def asFloat (v : Option JsonValue) : ℚ :=
  match v with
  | some (.jInt z) => (z : ℚ)
  | some (.jFloat q) => q
  | none => 0

/-! ## Report Record (`PictureReportPackage`, main.cpp lines 68-108)

`fromId` and `dest` model the `from` / `dest` envelope fields inherited
from `painlessmesh::plugin::SinglePackage` (`from` is a Lean keyword);
the three custom fields are `nodePrefix`, `pictureIndex` and
`deerProbability`.  `deerProbability` is a C++ `float`; its values are
modelled as rationals, which the codec stores and retrieves unchanged,
as ArduinoJson does for a float value. -/

structure PictureReportPackage where
  fromId : Nat
  dest : Nat
  nodePrefix : Int
  pictureIndex : Int
  deerProbability : ℚ
deriving DecidableEq

/-- Serialization `PictureReportPackage::addTo` (main.cpp lines 87-94):
the `SinglePackage` envelope writes the type tag 31 and `from` / `dest`,
then the three custom fields are written. -/
def addTo (p : PictureReportPackage) (j : JsonObj) : JsonObj :=
  let j1 := setField j "type" (.jInt 31)
  let j2 := setField j1 "from" (.jInt (p.fromId : Int))
  let j3 := setField j2 "dest" (.jInt (p.dest : Int))
  let j4 := setField j3 "nodePrefix" (.jInt p.nodePrefix)
  let j5 := setField j4 "pictureIndex" (.jInt p.pictureIndex)
  setField j5 "deerProbability" (.jFloat p.deerProbability)

/-- Deserialization, the `PictureReportPackage(JsonObject)` constructor
(main.cpp lines 80-84) plus the `SinglePackage(jsonObj)` base: every
field is read with `as<...>()`, missing or non-numeric fields defaulting
to 0 — no validation, no failure path. -/
def packageFromJson (j : JsonObj) : PictureReportPackage :=
  { fromId := asUInt32 (getField j "from")
    dest := asUInt32 (getField j "dest")
    nodePrefix := asInt32 (getField j "nodePrefix")
    pictureIndex := asInt32 (getField j "pictureIndex")
    deerProbability := asFloat (getField j "deerProbability") }

/-- The inbound handler registered for type tag 31 (main.cpp lines
354-359): it converts the variant to a `PictureReportPackage`, logs, and
returns `true` (acceptance) for every message. -/
def onPackageHandler (j : JsonObj) : PictureReportPackage × Bool :=
  (packageFromJson j, true)

/-! ## Report Queue (`cppQueue reportQueue(sizeof(...), 10, FIFO)`, line 112)

The queue is modelled as a list whose head is the oldest record. -/

abbrev ReportQueue := List PictureReportPackage

def queueCapacity : Nat := 10

def queueIsEmpty (q : ReportQueue) : Bool := q.isEmpty

def queueIsFull (q : ReportQueue) : Bool := q.length == queueCapacity

/-- The enqueue step of `takePicture` (main.cpp lines 186-195): if the
queue is full, `pop` the oldest record (returned to the caller, which
logs it as dropped), then `push` the new record at the tail.  The
returned option is the dropped record.  The operation is total: the
`push` after the `pop` cannot fail. -/
def pushReport (q : ReportQueue) (r : PictureReportPackage) :
    ReportQueue × Option PictureReportPackage :=
  if queueIsFull q then
    match q with
    | [] => ([r], none)
    | old :: rest => (rest ++ [r], some old)
  else (q ++ [r], none)

/-- Fold a sequence of enqueue steps over the initially empty queue. -/
def pushAll (rs : List PictureReportPackage) : ReportQueue :=
  rs.foldl (fun q r => (pushReport q r).1) []

/-- Delivery task body `sendReport` (main.cpp lines 125-139): if the
queue is empty, do nothing; otherwise `peek` the oldest record and hand
it to `mesh.sendPackage` (modelled by the oracle `sendOk`); on success
`drop` the head, on failure leave the queue untouched. -/
def sendReport (sendOk : Bool) (q : ReportQueue) : ReportQueue :=
  match q with
  | [] => []
  | r :: rest => if sendOk then rest else r :: rest

/-! ## Decimal strings

Arduino's `String(n)` conversion of an unsigned integer produces the
decimal digit string; `substring(6)` drops the first six characters.
The digits are computed least-significant first with explicit fuel
(`fuel ≥ n` suffices), so everything evaluates by kernel reduction. -/

def digitsRevFuel : Nat → Nat → List Nat
  | 0, _ => []
  | _ + 1, 0 => []
  | fuel + 1, n + 1 => (n + 1) % 10 :: digitsRevFuel fuel ((n + 1) / 10)

/-- Least-significant-first decimal digits of `n` (empty for 0). -/
def decDigitsRev (n : Nat) : List Nat := digitsRevFuel n n

/-- The character of one decimal digit. -/
def decChar (d : Nat) : Char :=
  match d with
  | 0 => '0' | 1 => '1' | 2 => '2' | 3 => '3' | 4 => '4'
  | 5 => '5' | 6 => '6' | 7 => '7' | 8 => '8' | _ => '9'

/-- The character list of Arduino `String(n)` for an unsigned `n`. -/
def decStrChars (n : Nat) : List Char :=
  if n = 0 then ['0'] else (decDigitsRev n).reverse.map decChar

def decStr (n : Nat) : String := String.mk (decStrChars n)

/-- Arduino `String(z)` for a signed value (used for `pictureNumber`). -/
def intDecStr (z : Int) : String :=
  if z < 0 then "-" ++ decStr z.natAbs else decStr z.toNat

/-- Numeric value of a most-significant-first decimal digit string. -/
def charVal (c : Char) : Nat := c.toNat - 48

def digitsVal (l : List Char) : Nat :=
  l.foldl (fun a c => 10 * a + charVal c) 0

/-! ## Capture pipeline (`takePicture`, main.cpp lines 143-201) -/

def PICTURES_PATH : String := "/pictures"

/-- The fixed collection node (`DEST_NODE`, main.cpp line 65). -/
def DEST_NODE : Nat := 3177562153

/-- `String(mesh.getNodeId()).substring(6)` (main.cpp line 157): the
decimal string of the node id with its first six characters removed. -/
def shortIdChars (nodeId : Nat) : List Char := (decStrChars nodeId).drop 6

def shortIdStr (nodeId : Nat) : String := String.mk (shortIdChars nodeId)

/-- The path the frame is persisted under (main.cpp lines 156-157). -/
def picturePath (nodeId : Nat) (pn : Int) : String :=
  PICTURES_PATH ++ "/" ++ shortIdStr nodeId ++ "_" ++ intDecStr pn ++ ".jpg"

/-- The one-byte EEPROM holding the sequence counter (`EEPROM_SIZE` is 1,
main.cpp line 40): `ram` is the cached byte that `EEPROM.read` returns
and `EEPROM.write` updates, `flash` the durable byte that
`EEPROM.commit` flushes to and that survives a restart. -/
structure EepromState where
  ram : Nat
  flash : Nat
deriving DecidableEq

/-- `EEPROM.read(0)`: the cached byte. -/
def eepromRead (e : EepromState) : Nat := e.ram % 256

/-- `EEPROM.write(0, v)`: the value is a C++ `int` converted to the
`uint8_t` parameter, i.e. reduced mod 256. -/
def eepromWrite (e : EepromState) (v : Int) : EepromState :=
  { e with ram := (v % 256).toNat }

/-- `EEPROM.commit()`: flush the cached byte to flash. -/
def eepromCommit (e : EepromState) : EepromState := { e with flash := e.ram % 256 }

/-- The mutable state `takePicture` touches: the EEPROM counter, the
global `pictureNumber` (main.cpp line 113) and the report queue. -/
structure NodeState where
  eeprom : EepromState
  pictureNumber : Int
  queue : ReportQueue
deriving DecidableEq

/-- The per-cycle oracle results of the external collaborators:
`cameraOk` models `esp_camera_fb_get()` returning a frame, `fileOpenOk`
models `fs.open(path, FILE_WRITE)` succeeding, and `confidence` is the
classifier score assigned to `deerProbability` (main.cpp line 177 stubs
it to the literal 0.5 pending the TensorFlow integration; the spec
treats the classifier as an external collaborator returning a score in
`[0,1]`). -/
structure CaptureInput where
  cameraOk : Bool
  fileOpenOk : Bool
  confidence : ℚ
deriving DecidableEq

/-- The externally visible effects of one capture cycle. -/
structure CaptureEffects where
  savedPath : Option String
  pushed : Option PictureReportPackage
  dropped : Option PictureReportPackage
  frameReleased : Bool
deriving DecidableEq

/-- The confidence gate's threshold, the literal `0.5` of main.cpp
line 179. -/
def deerThreshold : ℚ := 1 / 2

/-- Capture pipeline body `takePicture` (main.cpp lines 143-201),
mirrored statement by statement:

* camera failure aborts the cycle with no effects (lines 147-150);
* `pictureNumber = EEPROM.read(0) + 1` (line 153);
* the frame is written under `picturePath` (lines 156-163); if the file
  cannot be opened, an error is logged but the body does NOT return —
  the EEPROM is left untouched and execution falls through (lines
  160-161);
* on a successful open, the frame is written and the counter is stored
  and committed (lines 163-167);
* the report is built with the envelope and custom fields (lines
  172-177);
* the confidence gate (lines 179-184) discards the report, releases the
  frame and ends the cycle when `deerProbability < 0.5`;
* otherwise the report is enqueued via `pushReport` (lines 186-195) and
  the frame is released (line 197). -/
def takePicture (nodeId : Nat) (inp : CaptureInput) (s : NodeState) :
    NodeState × CaptureEffects :=
  if inp.cameraOk = false then
    (s, ⟨none, none, none, false⟩)
  else
    let pn : Int := (eepromRead s.eeprom : Int) + 1
    let path : String := picturePath nodeId pn
    let saveResult : EepromState × Option String :=
      if inp.fileOpenOk = false then (s.eeprom, none)
      else (eepromCommit (eepromWrite s.eeprom pn), some path)
    let newReport : PictureReportPackage :=
      { fromId := nodeId
        dest := DEST_NODE
        nodePrefix := ((nodeId % 10000 : Nat) : Int)
        pictureIndex := pn
        deerProbability := inp.confidence }
    if inp.confidence < deerThreshold then
      ({ eeprom := saveResult.1, pictureNumber := pn, queue := s.queue },
       ⟨saveResult.2, none, none, true⟩)
    else
      let pq := pushReport s.queue newReport
      ({ eeprom := saveResult.1, pictureNumber := pn, queue := pq.1 },
       ⟨saveResult.2, some newReport, pq.2, true⟩)

/-! ## Storage initialization (`initializeStorage`, main.cpp lines 220-276) -/

/-- The four well-known directories (main.cpp lines 115-120). -/
def directories : List String :=
  ["/pictures", "/reports", "/uptimeLogs", "/errorLogs"]

/-- Oracle results of the SD-card collaborator for one run of
`initializeStorage`: `SD_MMC.begin()`, the card-type check, and the
per-path results of `fs.exists`, `fs.mkdir` and `fs.open(..., FILE_WRITE)`. -/
structure StorageEnv where
  mountOk : Bool
  cardPresent : Bool
  dirExists : String → Bool
  mkdirOk : String → Bool
  fileExists : String → Bool
  createOk : String → Bool

/-- Candidate uptime-log name probed at index `n` (main.cpp line 256). -/
def uptimeLogCandidate (n : Nat) : String :=
  "/uptimeLogs/uptimeLog" ++ decStr n ++ ".txt"

/-- The do-while probe of main.cpp lines 254-258: starting at index `n`,
return the first candidate name that does not exist.  `fuel` bounds the
unrolling (the source loop terminates on any card holding finitely many
files; when fuel runs out the current candidate is returned). -/
def probeLogPath (fileExists : String → Bool) : Nat → Nat → String
  | 0, n => uptimeLogCandidate n
  | fuel + 1, n =>
      if fileExists (uptimeLogCandidate n) then probeLogPath fileExists fuel (n + 1)
      else uptimeLogCandidate n

/-- What one run of the `initializeStorage` body does to the task flags
and the globals.  `takePicEnabled` / `logUpEnabled` record
`taskTakePicture.enableIfNot()` / `taskLogUptime.enableIfNot()`,
`selfDisabled` records `taskInitializeStorage.disable()`;
`uptimeLogPath` is the global of main.cpp line 114 (initially the empty
string, assigned only when the new log file was created);
`createdDirs` are the directories the body created. -/
structure StorageInitOutcome where
  takePicEnabled : Bool
  logUpEnabled : Bool
  selfDisabled : Bool
  uptimeLogPath : String
  createdDirs : List String

/-- `initializeStorage` body (main.cpp lines 222-276).  On mount failure
or a missing card the body returns early, leaving every flag and global
untouched (the scheduler still retires the run-once task).  Otherwise
directory-creation errors are only logged; the uptime-log file is
created under the probed name, and on creation failure `uptimeLogPath`
stays empty; finally the capture and uptime tasks are enabled and the
task disables itself — unconditionally on this path. -/
def initializeStorage (env : StorageEnv) (fuel : Nat) : StorageInitOutcome :=
  if env.mountOk = false then ⟨false, false, false, "", []⟩
  else if env.cardPresent = false then ⟨false, false, false, "", []⟩
  else
    let created := directories.filter fun d => !env.dirExists d && env.mkdirOk d
    let logPath := probeLogPath env.fileExists fuel 0
    let uptimePath := if env.createOk logPath then logPath else ""
    ⟨true, true, true, uptimePath, created⟩

/-- Uptime logger body `logUptime` (main.cpp lines 205-218): open
`uptimeLogPath` for append; on failure log and skip the cycle, on
success append one line.  `openAppendOk` is the `fs.open(...,
FILE_APPEND)` oracle and `entry` the formatted uptime line (the
`String(float)` formatting of the elapsed minutes is the Arduino
collaborator's). -/
def logUptime (openAppendOk : String → Bool) (path : String)
    (log : List String) (entry : String) : List String :=
  if openAppendOk path then log ++ [entry] else log

/-! ## Initialization ordering (`setup` and the one-shot tasks)

The cooperative scheduler is modelled by the enabled flags of the five
user tasks and a step function over firing events.  A disabled task
never fires: an event for a disabled task leaves the state unchanged.
Run-once (`TASK_ONCE`) tasks retire after their single run, so their
flag is cleared after the body regardless of outcome. -/

structure TaskFlags where
  camInit : Bool
  storInit : Bool
  takePic : Bool
  logUp : Bool
  sendRep : Bool

/-- Scheduler state: the task flags plus two history observers —
`cameraReady` records that a run of `initializeCamera` succeeded
(`esp_camera_init == ESP_OK`, main.cpp lines 318-322), `storageReady`
that a run of `initializeStorage` passed the SD-card mount and
card-type checks. -/
structure SchedState where
  flags : TaskFlags
  cameraReady : Bool
  storageReady : Bool

/-- A firing opportunity for one task, carrying the collaborator oracle
results its body consumes. -/
inductive SchedEvent where
  | camInitFire (ok : Bool)
  | storInitFire (env : StorageEnv) (fuel : Nat)
  | takePicFire
  | logUpFire
  | sendRepFire

/-- The state after `setup` (main.cpp lines 364-375): all five tasks are
added; `taskTakePicture`, `taskLogUptime` and `taskInitializeStorage`
are disabled; `taskInitializeCamera` and `taskSendReport` are enabled. -/
def setupState : SchedState :=
  { flags := { camInit := true, storInit := false, takePic := false,
               logUp := false, sendRep := true }
    cameraReady := false
    storageReady := false }

/-- One scheduler step.  `initializeCamera` (main.cpp lines 280-327)
enables `taskInitializeStorage` only when `esp_camera_init` succeeded
(on failure it returns early and, being run-once, simply retires).
`initializeStorage` applies the flag effects of its body (see
`initializeStorage`); its run-once flag is cleared even on the early
returns.  The three periodic tasks do not touch any flag. -/
def schedStep (s : SchedState) (e : SchedEvent) : SchedState :=
  match e with
  | .camInitFire ok =>
      if s.flags.camInit then
        { s with
            flags := { s.flags with
                         camInit := false
                         storInit := s.flags.storInit || ok }
            cameraReady := s.cameraReady || ok }
      else s
  | .storInitFire env fuel =>
      if s.flags.storInit then
        let out := initializeStorage env fuel
        { s with
            flags := { s.flags with
                         storInit := false
                         takePic := s.flags.takePic || out.takePicEnabled
                         logUp := s.flags.logUp || out.logUpEnabled }
            storageReady := s.storageReady || (env.mountOk && env.cardPresent) }
      else s
  | _ => s

/-- Run the scheduler from a state through a sequence of events. -/
def schedRun (s : SchedState) (tr : List SchedEvent) : SchedState :=
  tr.foldl schedStep s

/-! ## Queue theorems (C1, C2) -/

/-- A sample record (used to build concrete queues in witnesses). -/
def sampleReport (i : Nat) : PictureReportPackage :=
  ⟨i, 0, 0, (i : Int), 1⟩

/-- A queue at capacity. -/
def fullQueue : ReportQueue := (List.range queueCapacity).map sampleReport

lemma pushReport_fst_length (q : ReportQueue) (r : PictureReportPackage)
    (h : q.length ≤ queueCapacity) :
    ((pushReport q r).1).length ≤ queueCapacity := by
  unfold pushReport queueIsFull
  rcases q with _ | ⟨old, rest⟩
  · simp [queueCapacity]
  · by_cases hf : (old :: rest).length = queueCapacity
    · simp only [beq_iff_eq, hf, if_pos]
      simp only [List.length_cons] at hf
      simp
      omega
    · simp only [beq_iff_eq, hf, if_neg, if_false]
      simp only [List.length_cons] at h hf ⊢
      simp only [List.length_append, List.length_cons, List.length_nil]
      omega

lemma pushAll_length_le (rs : List PictureReportPackage) :
    (pushAll rs).length ≤ queueCapacity := by
  suffices h : ∀ (q : ReportQueue), q.length ≤ queueCapacity →
      (rs.foldl (fun q r => (pushReport q r).1) q).length ≤ queueCapacity by
    exact h [] (by simp [queueCapacity])
  induction rs with
  | nil => intro q hq; simpa using hq
  | cons r rs ih =>
      intro q hq
      exact ih _ (pushReport_fst_length q r hq)

/-- C1: for every sequence of pushes the report queue never exceeds its
capacity 10; a push on a full queue evicts exactly the record that was
oldest before the push (returning it for logging) and appends the new
record at the tail; a push on a non-full queue appends at the tail and
evicts nothing.  `pushReport` is a total function, so a push never
fails. -/
theorem reportQueue_push_bounded_drop_oldest :
    (∀ rs : List PictureReportPackage, (pushAll rs).length ≤ queueCapacity) ∧
    (∀ (q : ReportQueue) (r : PictureReportPackage), q.length ≤ queueCapacity →
        ((pushReport q r).1).length ≤ queueCapacity) ∧
    (∀ (q : ReportQueue) (r : PictureReportPackage), q.length = queueCapacity →
        pushReport q r = (q.tail ++ [r], q.head?)) ∧
    (∀ (q : ReportQueue) (r : PictureReportPackage), q.length < queueCapacity →
        pushReport q r = (q ++ [r], none)) := by
  refine ⟨pushAll_length_le, pushReport_fst_length, ?_, ?_⟩
  · intro q r h
    rcases q with _ | ⟨old, rest⟩
    · simp [queueCapacity] at h
    · simp [pushReport, queueIsFull, h]
  · intro q r h
    have : ¬ (q.length = queueCapacity) := by omega
    simp [pushReport, queueIsFull, this]

/-- Witness for C1: pushing an 11th record onto a queue already holding
10 evicts exactly the oldest of the 10 and appends the new record. -/
theorem reportQueue_push_bounded_drop_oldest_witness :
    pushReport fullQueue (sampleReport 10) =
      (fullQueue.tail ++ [sampleReport 10], fullQueue.head?) :=
  reportQueue_push_bounded_drop_oldest.2.2.1 fullQueue (sampleReport 10) (by decide)

/-- C2: the delivery task is a no-op on the empty queue; on a non-empty
queue, a successful send removes exactly the head record, and a failed
send leaves the queue completely unchanged (so the same head is retried
before any record behind it). -/
theorem sendReport_head_of_line :
    (∀ ok : Bool, sendReport ok [] = []) ∧
    (∀ (r : PictureReportPackage) (rest : List PictureReportPackage),
        sendReport true (r :: rest) = rest) ∧
    (∀ (r : PictureReportPackage) (rest : List PictureReportPackage),
        sendReport false (r :: rest) = r :: rest) :=
  ⟨fun _ => rfl, fun _ _ => rfl, fun _ _ => rfl⟩

/-! ## Wire codec theorems (C6, C7) -/

/-- C6: encoding a Report Record into the keyed JSON message and decoding
the result yields a record equal to the original in all fields, for any
record whose envelope ids fit in `uint32` and whose `int` fields fit in
`int32` (as every record built by the firmware does). -/
theorem package_codec_roundtrip (p : PictureReportPackage)
    (hf : p.fromId < 2 ^ 32) (hd : p.dest < 2 ^ 32)
    (hn1 : -2 ^ 31 ≤ p.nodePrefix) (hn2 : p.nodePrefix < 2 ^ 31)
    (hp1 : -2 ^ 31 ≤ p.pictureIndex) (hp2 : p.pictureIndex < 2 ^ 31) :
    packageFromJson (addTo p []) = p := by
  obtain ⟨a, b, c, d, e⟩ := p
  simp only at hf hd hn1 hn2 hp1 hp2
  have h : packageFromJson (addTo ⟨a, b, c, d, e⟩ []) =
      ⟨(((a : Int)) % 2 ^ 32).toNat, (((b : Int)) % 2 ^ 32).toNat,
        wrap32 c, wrap32 d, e⟩ := rfl
  rw [h]
  have h1 : (((a : Int)) % 2 ^ 32).toNat = a := by omega
  have h2 : (((b : Int)) % 2 ^ 32).toNat = b := by omega
  have h3 : wrap32 c = c := by simp only [wrap32]; omega
  have h4 : wrap32 d = d := by simp only [wrap32]; omega
  rw [h1, h2, h3, h4]

/-- Witness for C6, at the spec's concrete record: `origin = 4242`,
`destination = 3177562153`, `originShortId = 4242`,
`sequenceNumber = 17`, `confidence = 0.87`. -/
theorem package_codec_roundtrip_witness :
    packageFromJson (addTo ⟨4242, 3177562153, 4242, 17, 87 / 100⟩ []) =
      ⟨4242, 3177562153, 4242, 17, 87 / 100⟩ :=
  package_codec_roundtrip _ (by norm_num) (by norm_num) (by norm_num)
    (by norm_num) (by norm_num) (by norm_num)

/-- C7 counterexample: decoding a message in which every custom field is
missing does not reject the message — it constructs a record with all
fields defaulted to zero, and the inbound handler accepts it. -/
theorem package_decode_fail_closed_cex :
    packageFromJson [] = ⟨0, 0, 0, 0, 0⟩ ∧ (onPackageHandler []).2 = true := by
  decide

/-- C7 (amended): deserialization performs no presence or type
validation and never fails: every inbound message yields a record (and
the type-31 handler accepts it); a missing custom field is silently read
as 0, and a field of the wrong numeric kind (a float where an int is
expected) is silently coerced, never rejected. -/
theorem package_decode_no_validation (j : JsonObj) :
    ((onPackageHandler j).2 = true) ∧
    (getField j "nodePrefix" = none → (packageFromJson j).nodePrefix = 0) ∧
    (getField j "deerProbability" = none →
        (packageFromJson j).deerProbability = 0) ∧
    (∀ q : ℚ, getField j "pictureIndex" = some (.jFloat q) →
        (packageFromJson j).pictureIndex = wrap32 (ratTrunc q)) := by
  refine ⟨rfl, ?_, ?_, ?_⟩
  · intro h; simp [packageFromJson, asInt32, asInt, h, wrap32]
  · intro h; simp [packageFromJson, asFloat, h]
  · intro q h; simp [packageFromJson, asInt32, asInt, h]

/-- Witness for C7 (amended): a message holding only a float-valued
`pictureIndex` decodes to a record with `nodePrefix` 0, confidence 0 and
the float truncated into the index — no rejection anywhere. -/
theorem package_decode_no_validation_witness :
    (packageFromJson [("pictureIndex", .jFloat (7 / 2))]).nodePrefix = 0 ∧
    (packageFromJson [("pictureIndex", .jFloat (7 / 2))]).deerProbability = 0 ∧
    (packageFromJson [("pictureIndex", .jFloat (7 / 2))]).pictureIndex =
      wrap32 (ratTrunc (7 / 2)) := by
  refine ⟨(package_decode_no_validation _).2.1 rfl,
    (package_decode_no_validation _).2.2.1 rfl,
    (package_decode_no_validation _).2.2.2 _ rfl⟩

/-! ## Decimal-string lemmas (for C9) -/

lemma digitsRevFuel_zero (fuel : Nat) : digitsRevFuel fuel 0 = [] := by
  cases fuel <;> rfl

lemma digitsRevFuel_congr (f1 : Nat) : ∀ (f2 n : Nat), n ≤ f1 → n ≤ f2 →
    digitsRevFuel f1 n = digitsRevFuel f2 n := by
  induction f1 with
  | zero =>
      intro f2 n h1 _
      interval_cases n
      rw [digitsRevFuel_zero, digitsRevFuel_zero]
  | succ g ih =>
      intro f2 n h1 h2
      match n, f2 with
      | 0, f2 => rw [digitsRevFuel_zero, digitsRevFuel_zero]
      | m + 1, g2 + 1 =>
          show (m + 1) % 10 :: digitsRevFuel g ((m + 1) / 10) =
            (m + 1) % 10 :: digitsRevFuel g2 ((m + 1) / 10)
          have hd : (m + 1) / 10 < m + 1 := Nat.div_lt_self (Nat.succ_pos m) (by norm_num)
          rw [ih g2 ((m + 1) / 10) (by omega) (by omega)]

lemma decDigitsRev_succ (n : Nat) (h : 0 < n) :
    decDigitsRev n = n % 10 :: decDigitsRev (n / 10) := by
  obtain ⟨m, rfl⟩ := Nat.exists_eq_succ_of_ne_zero (Nat.pos_iff_ne_zero.mp h)
  show digitsRevFuel (m + 1) (m + 1) = (m + 1) % 10 :: decDigitsRev ((m + 1) / 10)
  have hd : (m + 1) / 10 < m + 1 := Nat.div_lt_self (Nat.succ_pos m) (by norm_num)
  show (m + 1) % 10 :: digitsRevFuel m ((m + 1) / 10) =
    (m + 1) % 10 :: digitsRevFuel ((m + 1) / 10) ((m + 1) / 10)
  rw [digitsRevFuel_congr m ((m + 1) / 10) ((m + 1) / 10) (by omega) le_rfl]

/-- The `k` least-significant decimal digits of `n`, zero-padded. -/
def padRev : Nat → Nat → List Nat
  | 0, _ => []
  | k + 1, n => n % 10 :: padRev k (n / 10)

lemma padRev_length (k : Nat) : ∀ n, (padRev k n).length = k := by
  induction k with
  | zero => intro n; rfl
  | succ k ih => intro n; show (padRev k (n / 10)).length + 1 = k + 1; rw [ih]

lemma decDigitsRev_mul_pow_add (k : Nat) : ∀ (lo hi : Nat), lo < 10 ^ k → 0 < hi →
    decDigitsRev (hi * 10 ^ k + lo) = padRev k lo ++ decDigitsRev hi := by
  induction k with
  | zero =>
      intro lo hi hlo _
      interval_cases lo
      simp [padRev]
  | succ k ih =>
      intro lo hi hlo hhi
      have hpos : 0 < hi * 10 ^ (k + 1) + lo := by positivity
      rw [decDigitsRev_succ _ hpos]
      have e1 : hi * 10 ^ (k + 1) + lo = lo + hi * 10 ^ k * 10 := by ring
      have hmod : (hi * 10 ^ (k + 1) + lo) % 10 = lo % 10 := by
        rw [e1, Nat.add_mul_mod_self_right]
      have hdiv : (hi * 10 ^ (k + 1) + lo) / 10 = hi * 10 ^ k + lo / 10 := by
        rw [e1, Nat.add_mul_div_right _ _ (by norm_num : (0:Nat) < 10)]
        omega
      rw [hmod, hdiv, ih (lo / 10) hi (by omega) hhi]
      rfl

lemma decDigitsRev_length_le (k : Nat) : ∀ n, n < 10 ^ k →
    (decDigitsRev n).length ≤ k := by
  induction k with
  | zero =>
      intro n h
      interval_cases n
      simp [decDigitsRev, digitsRevFuel]
  | succ k ih =>
      intro n h
      rcases Nat.eq_zero_or_pos n with h0 | h0
      · subst h0; simp [decDigitsRev, digitsRevFuel]
      · rw [decDigitsRev_succ n h0]
        have : (decDigitsRev (n / 10)).length ≤ k := by
          refine ih _ ?_
          have := Nat.div_lt_iff_lt_mul (show 0 < 10 by norm_num) (x := n) (y := 10 ^ k)
          rw [this]
          calc n < 10 ^ (k + 1) := h
            _ = 10 ^ k * 10 := by ring
        simpa using this

lemma charVal_decChar (d : Nat) (h : d < 10) : charVal (decChar d) = d := by
  interval_cases d <;> decide

lemma digitsVal_append_one (l : List Char) (c : Char) :
    digitsVal (l ++ [c]) = 10 * digitsVal l + charVal c := by
  simp [digitsVal, List.foldl_append]

lemma digitsVal_padRev (k : Nat) : ∀ lo, lo < 10 ^ k →
    digitsVal ((padRev k lo).reverse.map decChar) = lo := by
  induction k with
  | zero =>
      intro lo h
      interval_cases lo
      rfl
  | succ k ih =>
      intro lo h
      show digitsVal (((lo % 10 :: padRev k (lo / 10)).reverse).map decChar) = lo
      rw [List.reverse_cons, List.map_append]
      simp only [List.map_cons, List.map_nil]
      rw [digitsVal_append_one, ih (lo / 10) (by
        have := Nat.div_lt_iff_lt_mul (show 0 < 10 by norm_num) (x := lo) (y := 10 ^ k)
        rw [this]
        calc lo < 10 ^ (k + 1) := h
          _ = 10 ^ k * 10 := by ring)]
      rw [charVal_decChar (lo % 10) (Nat.mod_lt lo (by norm_num))]
      omega

lemma decDigitsRev_length_gt (k : Nat) : ∀ n, 10 ^ k ≤ n →
    k < (decDigitsRev n).length := by
  induction k with
  | zero =>
      intro n h
      rw [decDigitsRev_succ n (by omega)]
      simp
  | succ k ih =>
      intro n h
      have hpos : 0 < n := lt_of_lt_of_le (by positivity) h
      rw [decDigitsRev_succ n hpos]
      have hdiv : 10 ^ k ≤ n / 10 := by
        rw [Nat.le_div_iff_mul_le (show 0 < 10 by norm_num)]
        calc 10 ^ k * 10 = 10 ^ (k + 1) := by ring
          _ ≤ n := h
      have := ih (n / 10) hdiv
      simpa using Nat.succ_lt_succ this

/-- For a node id with exactly ten decimal digits, `substring(6)` keeps
precisely the four least-significant digits (zero-padded), whose numeric
value is `nodeId % 10000`. -/
lemma shortIdChars_ten_digits (nodeId : Nat)
    (h1 : 10 ^ 9 ≤ nodeId) (h2 : nodeId < 10 ^ 10) :
    (shortIdChars nodeId).length = 4 ∧
    digitsVal (shortIdChars nodeId) = nodeId % 10000 := by
  have hlo : nodeId % 10 ^ 4 < 10 ^ 4 := Nat.mod_lt nodeId (by norm_num)
  have hhi1 : 10 ^ 5 ≤ nodeId / 10 ^ 4 := by
    rw [Nat.le_div_iff_mul_le (show 0 < 10 ^ 4 by norm_num)]
    calc (10:Nat) ^ 5 * 10 ^ 4 = 10 ^ 9 := by norm_num
      _ ≤ nodeId := h1
  have hhi2 : nodeId / 10 ^ 4 < 10 ^ 6 := by
    rw [Nat.div_lt_iff_lt_mul (show 0 < 10 ^ 4 by norm_num)]
    calc nodeId < 10 ^ 10 := h2
      _ = 10 ^ 6 * 10 ^ 4 := by norm_num
  have hhipos : 0 < nodeId / 10 ^ 4 := lt_of_lt_of_le (by norm_num) hhi1
  have hsplit : nodeId = nodeId / 10 ^ 4 * 10 ^ 4 + nodeId % 10 ^ 4 :=
    (Nat.div_add_mod nodeId (10 ^ 4)).symm.trans (by ring_nf)
  have hdig : decDigitsRev nodeId =
      padRev 4 (nodeId % 10 ^ 4) ++ decDigitsRev (nodeId / 10 ^ 4) := by
    conv_lhs => rw [hsplit]
    exact decDigitsRev_mul_pow_add 4 (nodeId % 10 ^ 4) (nodeId / 10 ^ 4) hlo hhipos
  have hlen6 : (decDigitsRev (nodeId / 10 ^ 4)).length = 6 := by
    have hle := decDigitsRev_length_le 6 (nodeId / 10 ^ 4) hhi2
    have hgt := decDigitsRev_length_gt 5 (nodeId / 10 ^ 4) hhi1
    omega
  have hne : nodeId ≠ 0 := by positivity
  have hchars : shortIdChars nodeId =
      (padRev 4 (nodeId % 10 ^ 4)).reverse.map decChar := by
    show (decStrChars nodeId).drop 6 = _
    rw [decStrChars, if_neg hne, hdig, List.reverse_append, List.map_append]
    have hl : ((decDigitsRev (nodeId / 10 ^ 4)).reverse.map decChar).length = 6 := by
      rw [List.length_map, List.length_reverse, hlen6]
    rw [show (6:Nat) = ((decDigitsRev (nodeId / 10 ^ 4)).reverse.map decChar).length from hl.symm,
      List.drop_left]
  constructor
  · rw [hchars, List.length_map, List.length_reverse, padRev_length]
  · rw [hchars, digitsVal_padRev 4 (nodeId % 10 ^ 4) hlo]
    norm_num

/-! ## Capture pipeline theorems (C3, C5, C8) -/

/-- Every record the capture pipeline pushes carries
`nodePrefix = nodeId % 10000` (main.cpp line 175). -/
lemma takePicture_pushed_nodePrefix (nodeId : Nat) (inp : CaptureInput)
    (s : NodeState) (r : PictureReportPackage)
    (h : ((takePicture nodeId inp s).2).pushed = some r) :
    r.nodePrefix = ((nodeId % 10000 : Nat) : Int) := by
  by_cases hc : inp.cameraOk = false
  · simp only [takePicture, hc, eq_self_iff_true, if_true] at h
    cases h
  · have hc' : inp.cameraOk = true := by revert hc; cases inp.cameraOk <;> simp
    simp only [takePicture, hc', Bool.true_eq_false, if_false] at h
    by_cases hq : inp.confidence < deerThreshold
    · rw [if_pos hq] at h
      cases h
    · rw [if_neg hq] at h
      cases h
      rfl

/-- C3 (amended): in a capture cycle whose frame write succeeds, the
persisted (flashed) counter byte is advanced to the candidate value
`counter + 1` — exactly, provided the stored byte is below 255 (the
EEPROM cell is a single byte, so at 255 the persisted value wraps to 0
while the filename and report still carry the candidate 256); the
candidate is the number used in the saved picture's path and in any
enqueued report, and it is committed to flash before the cycle ends. -/
theorem counter_advance_on_success (nodeId : Nat) (inp : CaptureInput)
    (s : NodeState) (hc : inp.cameraOk = true) (hf : inp.fileOpenOk = true)
    (hb : eepromRead s.eeprom < 255) :
    ((takePicture nodeId inp s).1).eeprom.flash = eepromRead s.eeprom + 1 ∧
    ((takePicture nodeId inp s).1).eeprom.ram = eepromRead s.eeprom + 1 ∧
    ((takePicture nodeId inp s).2).savedPath =
      some (picturePath nodeId ((eepromRead s.eeprom : Int) + 1)) ∧
    (∀ r, ((takePicture nodeId inp s).2).pushed = some r →
        r.pictureIndex = (eepromRead s.eeprom : Int) + 1) := by
  simp only [takePicture, hc, hf, Bool.true_eq_false, if_false,
    eepromCommit, eepromWrite]
  by_cases hq : inp.confidence < deerThreshold
  · rw [if_pos hq]
    refine ⟨?_, ?_, rfl, by intro r h; cases h⟩ <;>
      · simp only [eepromRead] at hb ⊢; omega
  · rw [if_neg hq]
    refine ⟨?_, ?_, rfl, ?_⟩
    · simp only [eepromRead] at hb ⊢; omega
    · simp only [eepromRead] at hb ⊢; omega
    · intro r h
      cases h
      rfl

/-- Witness for C3 (amended): counter byte 41, successful write and
confidence 1: flash holds 42 at cycle end, the path and report carry 42. -/
theorem counter_advance_on_success_witness :
    ((takePicture 3177562153 ⟨true, true, 1⟩ ⟨⟨41, 41⟩, 0, []⟩).1).eeprom.flash = 42 ∧
    ((takePicture 3177562153 ⟨true, true, 1⟩ ⟨⟨41, 41⟩, 0, []⟩).2).savedPath =
      some (picturePath 3177562153 42) := by
  have h := counter_advance_on_success 3177562153 ⟨true, true, 1⟩ ⟨⟨41, 41⟩, 0, []⟩
    rfl rfl (by decide)
  exact ⟨h.1, h.2.2.1⟩

/-- C3 counterexample: with the persisted byte at 255 the candidate is
256 and is used in the report, but the one-byte EEPROM persists 0 — the
counter is not advanced to the candidate value. -/
theorem counter_advance_on_success_cex :
    ((takePicture 1000000000 ⟨true, true, 1⟩ ⟨⟨255, 255⟩, 0, []⟩).1).eeprom.flash = 0 ∧
    ((takePicture 1000000000 ⟨true, true, 1⟩ ⟨⟨255, 255⟩, 0, []⟩).2).pushed =
      some ⟨1000000000, DEST_NODE, 0, 256, 1⟩ ∧
    (0 : Nat) ≠ 255 + 1 := by
  refine ⟨?_, ?_, by decide⟩ <;>
    norm_num [takePicture, deerThreshold, eepromRead, eepromWrite,
      eepromCommit, pushReport, queueIsFull, queueCapacity]

/-- C5 (amended): when the frame's file cannot be opened for writing,
the EEPROM counter (cache and flash) is left unchanged and nothing is
saved — but the cycle does NOT discard the report: unless the confidence
gate fires, a report carrying the unpersisted candidate sequence number
`counter + 1` is still built and pushed onto the queue. -/
theorem write_failure_effects (nodeId : Nat) (inp : CaptureInput)
    (s : NodeState) (hc : inp.cameraOk = true) (hf : inp.fileOpenOk = false) :
    ((takePicture nodeId inp s).1).eeprom = s.eeprom ∧
    ((takePicture nodeId inp s).2).savedPath = none ∧
    (¬ inp.confidence < deerThreshold →
        ((takePicture nodeId inp s).2).pushed =
          some ⟨nodeId, DEST_NODE, ((nodeId % 10000 : Nat) : Int),
            (eepromRead s.eeprom : Int) + 1, inp.confidence⟩) ∧
    (inp.confidence < deerThreshold →
        ((takePicture nodeId inp s).2).pushed = none) := by
  simp only [takePicture, hc, hf, Bool.true_eq_false, eq_self_iff_true,
    if_false, if_true]
  by_cases hq : inp.confidence < deerThreshold
  · rw [if_pos hq]
    exact ⟨rfl, rfl, fun h => absurd hq h, fun _ => rfl⟩
  · rw [if_neg hq]
    exact ⟨rfl, rfl, fun _ => rfl, fun h => absurd h hq⟩

/-- Witness for C5 (amended): camera ok, file open fails, confidence 1:
the EEPROM is untouched but the report with the candidate number is
still enqueued. -/
theorem write_failure_effects_witness :
    ((takePicture 4242 ⟨true, false, 1⟩ ⟨⟨7, 7⟩, 0, []⟩).1).eeprom = ⟨7, 7⟩ ∧
    ((takePicture 4242 ⟨true, false, 1⟩ ⟨⟨7, 7⟩, 0, []⟩).2).pushed =
      some ⟨4242, DEST_NODE, 4242, 8, 1⟩ := by
  have h := write_failure_effects 4242 ⟨true, false, 1⟩ ⟨⟨7, 7⟩, 0, []⟩ rfl rfl
  exact ⟨h.1, h.2.2.1 (by norm_num [deerThreshold])⟩

/-- C5 counterexample: a cycle with a failed file open (stub confidence
0.5) leaves the counter alone but pushes a report — the queue does not
stay unchanged, contradicting the claim that no record is enqueued. -/
theorem write_failure_cex :
    ((takePicture 4242 ⟨true, false, 1 / 2⟩ ⟨⟨7, 7⟩, 0, []⟩).1).queue =
      [⟨4242, DEST_NODE, 4242, 8, 1 / 2⟩] ∧
    ((takePicture 4242 ⟨true, false, 1 / 2⟩ ⟨⟨7, 7⟩, 0, []⟩).1).queue ≠ [] := by
  constructor <;>
    norm_num [takePicture, deerThreshold, eepromRead, pushReport,
      queueIsFull, queueCapacity]

/-- C8: whenever the classifier confidence of the cycle is below the 0.5
threshold, the record is discarded: nothing is pushed (the queue is
unchanged, nothing is evicted either), the frame buffer is released, and
the cycle ends. -/
theorem low_confidence_discard (nodeId : Nat) (inp : CaptureInput)
    (s : NodeState) (hc : inp.cameraOk = true)
    (hlow : inp.confidence < deerThreshold) :
    deerThreshold = 1 / 2 ∧
    ((takePicture nodeId inp s).1).queue = s.queue ∧
    ((takePicture nodeId inp s).2).pushed = none ∧
    ((takePicture nodeId inp s).2).dropped = none ∧
    ((takePicture nodeId inp s).2).frameReleased = true := by
  simp only [takePicture, hc, Bool.true_eq_false, if_false]
  rw [if_pos hlow]
  exact ⟨rfl, rfl, rfl, rfl, rfl⟩

/-- Witness for C8: confidence 0.25 with an otherwise successful cycle:
the queue is untouched, nothing pushed, the frame released. -/
theorem low_confidence_discard_witness :
    ((takePicture 4242 ⟨true, true, 1 / 4⟩ ⟨⟨7, 7⟩, 0, []⟩).1).queue = [] ∧
    ((takePicture 4242 ⟨true, true, 1 / 4⟩ ⟨⟨7, 7⟩, 0, []⟩).2).pushed = none ∧
    ((takePicture 4242 ⟨true, true, 1 / 4⟩ ⟨⟨7, 7⟩, 0, []⟩).2).frameReleased = true := by
  have h := low_confidence_discard 4242 ⟨true, true, 1 / 4⟩ ⟨⟨7, 7⟩, 0, []⟩
    rfl (by norm_num [deerThreshold])
  exact ⟨h.2.1, h.2.2.1, h.2.2.2.2⟩

/-! ## Artifact naming theorems (C9) -/

/-- C9 (amended): the persisted picture path always ends in
`<shortId>_<sequenceNumber>.jpg` where `shortId` is the decimal string
of the node identifier with its first six characters removed
(`String(nodeId).substring(6)`).  Only when the node identifier has
exactly ten decimal digits (`10^9 ≤ nodeId < 2^32`) does this shortId
consist of the low 4 decimal digits, with numeric value
`nodeId % 10000`, the value stored as `nodePrefix` in every pushed
Report Record; for shorter identifiers the path and the record
disagree. -/
theorem picture_path_short_id (nodeId : Nat) (pn : Int)
    (h1 : 10 ^ 9 ≤ nodeId) (h2 : nodeId < 2 ^ 32) :
    picturePath nodeId pn =
      "/pictures/" ++ shortIdStr nodeId ++ "_" ++ intDecStr pn ++ ".jpg" ∧
    (shortIdChars nodeId).length = 4 ∧
    digitsVal (shortIdChars nodeId) = nodeId % 10000 ∧
    (∀ (inp : CaptureInput) (s : NodeState) (r : PictureReportPackage),
        ((takePicture nodeId inp s).2).pushed = some r →
          r.nodePrefix = ((nodeId % 10000 : Nat) : Int)) := by
  have h2' : nodeId < 10 ^ 10 := lt_of_lt_of_le h2 (by norm_num)
  obtain ⟨hl, hv⟩ := shortIdChars_ten_digits nodeId h1 h2'
  exact ⟨rfl, hl, hv, fun inp s r h => takePicture_pushed_nodePrefix nodeId inp s r h⟩

/-- Witness for C9 (amended), at the ten-digit collection-node id
3177562153: the path's shortId is "2153" with value 2153 =
3177562153 % 10000, matching the record's `nodePrefix`. -/
theorem picture_path_short_id_witness :
    shortIdStr 3177562153 = "2153" ∧
    digitsVal (shortIdChars 3177562153) = 3177562153 % 10000 ∧
    picturePath 3177562153 42 = "/pictures/2153_42.jpg" := by
  have h := picture_path_short_id 3177562153 42 (by norm_num) (by norm_num)
  exact ⟨by decide, h.2.2.1, by decide⟩

/-- C9 counterexample: for node identifier 4242 the claim fails — the
decimal string "4242" has fewer than six characters, `substring(6)` is
empty, and the persisted path is "/pictures/_17.jpg", which does not end
in "4242_17.jpg" even though `4242 % 10000 = 4242` and the record's
`nodePrefix` is 4242. -/
theorem picture_path_short_id_cex :
    picturePath 4242 17 = "/pictures/_17.jpg" ∧
    decStr (4242 % 10000) = "4242" ∧
    shortIdStr 4242 = "" ∧
    shortIdStr 4242 ≠ decStr (4242 % 10000) := by
  decide

/-! ## Initialization theorems (C4, C10) -/

/-- The `initializeStorage` body enables the periodic duties and retires
itself exactly when the SD-card mount and card-type checks pass,
whatever the directory and file oracles say. -/
lemma initializeStorage_enables (env : StorageEnv) (fuel : Nat) :
    (initializeStorage env fuel).takePicEnabled = (env.mountOk && env.cardPresent) ∧
    (initializeStorage env fuel).logUpEnabled = (env.mountOk && env.cardPresent) ∧
    (initializeStorage env fuel).selfDisabled = (env.mountOk && env.cardPresent) := by
  unfold initializeStorage
  cases hm : env.mountOk <;> cases hc : env.cardPresent <;> simp

/-- The safety invariant of the initialization chain. -/
def schedInv (s : SchedState) : Prop :=
  (s.flags.takePic = true → s.storageReady = true) ∧
  (s.flags.logUp = true → s.storageReady = true) ∧
  (s.flags.storInit = true → s.cameraReady = true) ∧
  (s.storageReady = true → s.cameraReady = true) ∧
  s.flags.sendRep = true

lemma schedStep_inv (s : SchedState) (e : SchedEvent) (h : schedInv s) :
    schedInv (schedStep s e) := by
  obtain ⟨h1, h2, h3, h4, h5⟩ := h
  rcases e with ok | ⟨env, fuel⟩ | _ | _ | _
  · by_cases hcam : s.flags.camInit
    · simp only [schedStep, hcam, if_true]
      refine ⟨h1, h2, ?_, ?_, h5⟩
      · intro hso
        rcases Bool.or_eq_true_iff.mp hso with hso | hso
        · exact Bool.or_eq_true_iff.mpr (Or.inl (h3 hso))
        · exact Bool.or_eq_true_iff.mpr (Or.inr hso)
      · intro hsr
        exact Bool.or_eq_true_iff.mpr (Or.inl (h4 hsr))
    · simpa only [schedStep, hcam, if_false] using ⟨h1, h2, h3, h4, h5⟩
  · by_cases hsi : s.flags.storInit
    · have hcr : s.cameraReady = true := h3 hsi
      obtain ⟨he1, he2, _⟩ := initializeStorage_enables env fuel
      simp only [schedStep, hsi, if_true]
      refine ⟨?_, ?_, ?_, ?_, h5⟩
      · intro htp
        rcases Bool.or_eq_true_iff.mp htp with htp | htp
        · exact Bool.or_eq_true_iff.mpr (Or.inl (h1 htp))
        · rw [he1] at htp
          exact Bool.or_eq_true_iff.mpr (Or.inr htp)
      · intro hlu
        rcases Bool.or_eq_true_iff.mp hlu with hlu | hlu
        · exact Bool.or_eq_true_iff.mpr (Or.inl (h2 hlu))
        · rw [he2] at hlu
          exact Bool.or_eq_true_iff.mpr (Or.inr hlu)
      · intro hso
        cases hso
      · intro _
        exact hcr
    · simpa only [schedStep, hsi, if_false] using ⟨h1, h2, h3, h4, h5⟩
  · exact ⟨h1, h2, h3, h4, h5⟩
  · exact ⟨h1, h2, h3, h4, h5⟩
  · exact ⟨h1, h2, h3, h4, h5⟩

lemma schedRun_inv (tr : List SchedEvent) : ∀ (s : SchedState), schedInv s →
    schedInv (schedRun s tr) := by
  induction tr with
  | nil => intro s h; exact h
  | cons e tr ih => intro s h; exact ih (schedStep s e) (schedStep_inv s e h)

/-- The stuck state reached when camera initialization never succeeds. -/
def camStuck (s : SchedState) : Prop :=
  s.cameraReady = false ∧ s.flags.storInit = false ∧
  s.flags.takePic = false ∧ s.flags.logUp = false ∧ s.storageReady = false

lemma schedStep_camStuck (s : SchedState) (e : SchedEvent) (h : camStuck s)
    (he : ∀ ok, e = SchedEvent.camInitFire ok → ok = false) :
    camStuck (schedStep s e) := by
  obtain ⟨h1, h2, h3, h4, h5⟩ := h
  rcases e with ok | ⟨env, fuel⟩ | _ | _ | _
  · have hok : ok = false := he ok rfl
    subst hok
    by_cases hcam : s.flags.camInit
    · simp only [schedStep, hcam, if_true]
      exact ⟨by simp [h1], by simp [h2], h3, h4, h5⟩
    · simpa only [schedStep, hcam, if_false] using ⟨h1, h2, h3, h4, h5⟩
  · simpa only [schedStep, h2, if_false] using ⟨h1, h2, h3, h4, h5⟩
  · exact ⟨h1, h2, h3, h4, h5⟩
  · exact ⟨h1, h2, h3, h4, h5⟩
  · exact ⟨h1, h2, h3, h4, h5⟩

lemma schedRun_camStuck (tr : List SchedEvent) : ∀ (s : SchedState), camStuck s →
    (∀ e ∈ tr, ∀ ok, e = SchedEvent.camInitFire ok → ok = false) →
    camStuck (schedRun s tr) := by
  induction tr with
  | nil => intro s h _; exact h
  | cons e tr ih =>
      intro s h htr
      exact ih (schedStep s e)
        (schedStep_camStuck s e h (htr e (List.mem_cons_self e tr)))
        (fun e2 he2 => htr e2 (List.mem_cons_of_mem e he2))

/-- C4: starting from the state `setup` leaves the scheduler in, along
every event sequence: the capture task and the uptime logger are enabled
only after a run of the storage-initialization task whose SD-card mount
and card check succeeded (so neither can fire before that, and since
storage initialization is enabled only by a successful camera
initialization, neither runs before the full chain); if every camera
initialization attempt fails, the storage-initialization task is never
enabled and the capture task never fires; the delivery task is enabled
from process start and stays enabled. -/
theorem init_ordering_chain (tr : List SchedEvent) :
    ((schedRun setupState tr).flags.takePic = true →
        (schedRun setupState tr).storageReady = true) ∧
    ((schedRun setupState tr).flags.logUp = true →
        (schedRun setupState tr).storageReady = true) ∧
    ((schedRun setupState tr).flags.storInit = true →
        (schedRun setupState tr).cameraReady = true) ∧
    (schedRun setupState tr).flags.sendRep = true ∧
    ((∀ e ∈ tr, ∀ ok, e = SchedEvent.camInitFire ok → ok = false) →
        (schedRun setupState tr).flags.takePic = false ∧
        (schedRun setupState tr).flags.logUp = false ∧
        (schedRun setupState tr).flags.storInit = false) := by
  have hbase : schedInv setupState := by
    unfold schedInv
    refine ⟨?_, ?_, ?_, ?_, ?_⟩ <;> simp [setupState]
  have hinv : schedInv (schedRun setupState tr) :=
    schedRun_inv tr setupState hbase
  refine ⟨hinv.1, hinv.2.1, hinv.2.2.1, hinv.2.2.2.2, ?_⟩
  intro htr
  have hstuck : camStuck (schedRun setupState tr) :=
    schedRun_camStuck tr setupState ⟨rfl, rfl, rfl, rfl, rfl⟩ htr
  exact ⟨hstuck.2.2.1, hstuck.2.2.2.1, hstuck.2.1⟩

/-- Witness for C4: after a failed camera initialization followed by
delivery and capture firing opportunities, the capture task is still
disabled (it never fired) while the delivery task has been enabled
throughout. -/
theorem init_ordering_chain_witness :
    (schedRun setupState [SchedEvent.camInitFire false, SchedEvent.sendRepFire,
        SchedEvent.takePicFire]).flags.takePic = false ∧
    (schedRun setupState [SchedEvent.camInitFire false, SchedEvent.sendRepFire,
        SchedEvent.takePicFire]).flags.sendRep = true := by
  have h := init_ordering_chain [SchedEvent.camInitFire false,
    SchedEvent.sendRepFire, SchedEvent.takePicFire]
  refine ⟨(h.2.2.2.2 ?_).1, h.2.2.2.1⟩
  intro e he ok hk
  simp at he
  rcases he with rfl | rfl | rfl
  · injection hk with h2
    exact h2.symm
  · simp at hk
  · simp at hk

/-- C10: whenever the SD-card mount and the card-type check succeed, the
storage-initialization body enables the capture and uptime tasks and
disables itself, regardless of the directory-creation and file-creation
oracle results; if creating the probed uptime-log file failed, the
uptime-log path stays the empty string, and a logger cycle on the empty
path (which no filesystem opens) appends nothing. -/
theorem storage_init_enable_policy (env : StorageEnv) (fuel : Nat)
    (hm : env.mountOk = true) (hc : env.cardPresent = true) :
    (initializeStorage env fuel).takePicEnabled = true ∧
    (initializeStorage env fuel).logUpEnabled = true ∧
    (initializeStorage env fuel).selfDisabled = true ∧
    (env.createOk (probeLogPath env.fileExists fuel 0) = false →
        (initializeStorage env fuel).uptimeLogPath = "") ∧
    (∀ (openAppendOk : String → Bool) (log : List String) (entry : String),
        openAppendOk "" = false → logUptime openAppendOk "" log entry = log) := by
  obtain ⟨h1, h2, h3⟩ := initializeStorage_enables env fuel
  rw [hm, hc] at h1 h2 h3
  refine ⟨h1, h2, h3, ?_, ?_⟩
  · intro hcr
    simp only [initializeStorage, hm, hc, Bool.true_eq_false, if_false, hcr]
    simp
  · intro openAppendOk log entry h
    simp [logUptime, h]

/-- Witness for C10: mount and card checks pass while every directory
and file operation fails: the tasks are still enabled, the task retires,
the uptime-log path stays empty, and an uptime cycle appends nothing. -/
theorem storage_init_enable_policy_witness :
    (initializeStorage ⟨true, true, fun _ => false, fun _ => false,
        fun _ => false, fun _ => false⟩ 0).takePicEnabled = true ∧
    (initializeStorage ⟨true, true, fun _ => false, fun _ => false,
        fun _ => false, fun _ => false⟩ 0).uptimeLogPath = "" ∧
    logUptime (fun _ => false) "" ["3.00 min"] "17.25 min" = ["3.00 min"] := by
  have h := storage_init_enable_policy ⟨true, true, fun _ => false,
    fun _ => false, fun _ => false, fun _ => false⟩ 0 rfl rfl
  exact ⟨h.1, h.2.2.2.1 rfl, h.2.2.2.2 _ _ _ rfl⟩

end SmartForest
